import Mathlib

/-!
Verification of the text-normalization pipeline of `Movie-Review-Web.ipynb`.

The notebook defines `preprocess_text(text)`:

  normalized_text = text.lower()
  stop_words = set(stopwords.words('english'))
  filtered_tokens = [word for word in normalized_text.split() if word not in stop_words]
  text_without_punctuation = [re.sub(r'[^\w\s]', '', word) for word in filtered_tokens]
  lemmatized_tokens = [lemmatizer.lemmatize(word, pos='v') for word in text_without_punctuation]
  stemmed_tokens = [stemmer.stem(word) for word in lemmatized_tokens]
  return ' '.join(lemmatized_tokens)

We embed the string operations over `List Char` with ASCII semantics (the
fragment exercised by the notebook).  The stop-word set is the NLTK English
list, an external linguistic resource; the WordNet lemmatizer and the Porter
stemmer are opaque external resources and are taken as function parameters.
-/

/-- The ASCII apostrophe character, written via its code point. -/
def apoc : Char := '\x27'

/-- The ASCII apostrophe as a one-character string, used to build the
stop-word entries and sample text that contain contractions. -/
def ap : String := String.singleton apoc

/-- Whitespace for Python `str.split()` and the regex class `\s`
(ASCII fragment): space, tab, newline, vertical tab, form feed,
carriage return. -/
def pyIsSpace (c : Char) : Bool :=
  c = ' ' || c = '\t' || c = '\n' || c = '\x0b' || c = '\x0c' || c = '\r'

/-- The regex class `\w` (ASCII fragment): alphanumeric or underscore.
Note that Python `\w` includes the underscore. -/
def isWordChar (c : Char) : Bool :=
  c.isAlphanum || c = '_'

/-- Python `str.lower()` on one character (ASCII fragment):
map the code points 65-90 (A-Z) to 97-122 (a-z). -/
def toLowerPy (c : Char) : Char :=
  if 65 ≤ c.toNat ∧ c.toNat ≤ 90 then Char.ofNat (c.toNat + 32) else c

/-- Python `str.lower()`: lowercase every character of the string.
Embeds `text.lower()` of the notebook (step 1, normalize capitalization). -/
def lowerStr (s : String) : String :=
  String.mk (s.data.map toLowerPy)

/-- Accumulator-style worker for Python `str.split()`: `acc` holds the
characters of the word currently being read, in reverse. -/
def splitAux : List Char → List Char → List (List Char)
  | [], acc => if acc = [] then [] else [acc.reverse]
  | c :: cs, acc =>
    if pyIsSpace c then
      if acc = [] then splitAux cs [] else acc.reverse :: splitAux cs []
    else
      splitAux cs (c :: acc)

/-- Python `str.split()` with no argument: split on runs of whitespace,
dropping empty chunks.  Embeds `normalized_text.split()` of the notebook. -/
def pySplit (s : String) : List String :=
  (splitAux s.data []).map String.mk

/-- The NLTK English stop-word list, the external linguistic resource
loaded by the notebook via `stopwords.words('english')`.  Modelled from the
spec (section 1 treats stop-word lists as opaque external data; section 4.1
fixes the language to English): the data itself is not part of src, so it
is reproduced here verbatim from the NLTK `english` corpus file. -/
def stop_words : List String :=
  ["i", "me", "my", "myself", "we", "our", "ours", "ourselves", "you",
   "you" ++ ap ++ "re", "you" ++ ap ++ "ve", "you" ++ ap ++ "ll",
   "you" ++ ap ++ "d", "your", "yours", "yourself", "yourselves", "he",
   "him", "his", "himself", "she", "she" ++ ap ++ "s", "her", "hers",
   "herself", "it", "it" ++ ap ++ "s", "its", "itself", "they", "them",
   "their", "theirs", "themselves", "what", "which", "who", "whom", "this",
   "that", "that" ++ ap ++ "ll", "these", "those", "am", "is", "are",
   "was", "were", "be", "been", "being", "have", "has", "had", "having",
   "do", "does", "did", "doing", "a", "an", "the", "and", "but", "if",
   "or", "because", "as", "until", "while", "of", "at", "by", "for",
   "with", "about", "against", "between", "into", "through", "during",
   "before", "after", "above", "below", "to", "from", "up", "down", "in",
   "out", "on", "off", "over", "under", "again", "further", "then",
   "once", "here", "there", "when", "where", "why", "how", "all", "any",
   "both", "each", "few", "more", "most", "other", "some", "such", "no",
   "nor", "not", "only", "own", "same", "so", "than", "too", "very", "s",
   "t", "can", "will", "just", "don", "don" ++ ap ++ "t", "should",
   "should" ++ ap ++ "ve", "now", "d", "ll", "m", "o", "re", "ve", "y",
   "ain", "aren", "aren" ++ ap ++ "t", "couldn", "couldn" ++ ap ++ "t",
   "didn", "didn" ++ ap ++ "t", "doesn", "doesn" ++ ap ++ "t", "hadn",
   "hadn" ++ ap ++ "t", "hasn", "hasn" ++ ap ++ "t", "haven",
   "haven" ++ ap ++ "t", "isn", "isn" ++ ap ++ "t", "ma", "mightn",
   "mightn" ++ ap ++ "t", "mustn", "mustn" ++ ap ++ "t", "needn",
   "needn" ++ ap ++ "t", "shan", "shan" ++ ap ++ "t", "shouldn",
   "shouldn" ++ ap ++ "t", "wasn", "wasn" ++ ap ++ "t", "weren",
   "weren" ++ ap ++ "t", "won", "won" ++ ap ++ "t", "wouldn",
   "wouldn" ++ ap ++ "t"]

/-- Stop-word filtering stage: keep each token whose verbatim string is not
a member of the stop-word set.  Embeds the list comprehension
`[word for word in tokens if word not in stop_words]`. -/
def removeStopWords (toks : List String) : List String :=
  toks.filter (fun word => !(stop_words.contains word))

/-- Punctuation stripping stage on one token: `re.sub(r'[^\w\s]', '', word)`
replaces every character that is neither a word character nor whitespace by
the empty string, i.e. keeps exactly the `\w` and `\s` characters. -/
def stripPunctuation (word : String) : String :=
  String.mk (word.data.filter (fun c => isWordChar c || pyIsSpace c))

/-- Stage view: the tokens after lowercasing, splitting and stop-word
filtering (the notebook value `filtered_tokens`). -/
def filteredTokensOf (text : String) : List String :=
  removeStopWords (pySplit (lowerStr text))

/-- Stage view: the tokens after punctuation stripping (the notebook value
`text_without_punctuation`). -/
def strippedTokensOf (text : String) : List String :=
  (filteredTokensOf text).map stripPunctuation

/-- Stage view: the tokens after lemmatization with the verb POS tag (the
notebook value `lemmatized_tokens`); `lem` is the external WordNet
lemmatizer specialized to `pos='v'`. -/
def lemmatizedTokensOf (lem : String → String) (text : String) : List String :=
  (strippedTokensOf text).map lem

/-- Stage view: the tokens after stemming (the notebook value
`stemmed_tokens`); `stem` is the external Porter stemmer. -/
def stemmedTokensOf (lem stem : String → String) (text : String) : List String :=
  (lemmatizedTokensOf lem text).map stem

/-- The notebook function `preprocess_text`, parameterized by the external
lemmatizer and stemmer.  It computes the stemmed tokens (the notebook does,
and then leaves them unused: the stemmed return is commented out) and
returns the lemmatized tokens joined by single spaces. -/
def preprocess_text (lem stem : String → String) (text : String) : String :=
  let normalized_text := lowerStr text
  let filtered_tokens := (pySplit normalized_text).filter
    (fun word => !(stop_words.contains word))
  let text_without_punctuation := filtered_tokens.map stripPunctuation
  let lemmatized_tokens := text_without_punctuation.map lem
  let stemmed_tokens := lemmatized_tokens.map stem
  have _ := stemmed_tokens
  String.intercalate " " lemmatized_tokens

/-- The configuration toggle required by the spec (section 4.4 step 6):
either return the lemmatized-only output or the lemmatized-then-stemmed
output. -/
inductive StemMode where
  | lemmatizeOnly : StemMode
  | lemmatizeThenStem : StemMode

/-- Modelled from the spec: `normalize(text, resources, config)` with the
`{lemmatizeOnly, lemmatizeThenStem}` toggle, joining the surviving tokens
with single spaces.  The spec requires both code paths to be selectable;
the notebook itself hardwires the lemmatize-only return. -/
def normalizePipeline (lem stem : String → String) (mode : StemMode) (text : String) : String :=
  match mode with
  | StemMode.lemmatizeOnly => String.intercalate " " (lemmatizedTokensOf lem text)
  | StemMode.lemmatizeThenStem =>
      String.intercalate " " (stemmedTokensOf lem stem text)

/-- The sample sentence of the notebook cell `b763c11c`. -/
def sample_text : String :=
  "Dogs are running in the park, and they ran fast! The dog was excited; it"
    ++ ap ++ "s their favorite spot."

/-- The token that the lowercased sample text contains for the contraction
of it is, spelled with an ASCII apostrophe. -/
def itsTok : String := "it" ++ ap ++ "s"

/-- A concrete lemmatizer fragment agreeing with the WordNet verb-POS
lemmatizer on the nine tokens of the sample sentence, used to instantiate
theorems that take the lemmatizer as a parameter. -/
def tableLemmatizer (w : String) : String :=
  if w = "dogs" then "dog"
  else if w = "running" then "run"
  else if w = "ran" then "run"
  else if w = "excited" then "excite"
  else w

/-- Decidable form of the charset property claimed for the output of
punctuation stripping: every character is alphanumeric or whitespace. -/
def onlyAlnumOrSpace (s : String) : Bool :=
  s.data.all (fun c => c.isAlphanum || pyIsSpace c)

/-- Helper: packing a valid code point and unpacking it is the identity. -/
theorem toNat_ofNat_valid (n : Nat) (h : n.isValidChar) :
    (Char.ofNat n).toNat = n := by
  rw [Char.ofNat, dif_pos h]
  rfl

/-- Helper: lowercasing a single character twice equals lowercasing once. -/
theorem toLowerPy_idem (c : Char) : toLowerPy (toLowerPy c) = toLowerPy c := by
  unfold toLowerPy
  by_cases h : 65 ≤ c.toNat ∧ c.toNat ≤ 90
  · rw [if_pos h, if_neg]
    rw [toNat_ofNat_valid _ (Or.inl (by omega))]
    omega
  · rw [if_neg h, if_neg h]

/-- Helper: every chunk produced by the split worker is non-empty and free
of whitespace characters, given that the accumulator is. -/
theorem splitAux_sound (cs : List Char) : ∀ acc : List Char,
    (∀ c ∈ acc, pyIsSpace c = false) →
    ∀ w ∈ splitAux cs acc, w ≠ [] ∧ ∀ c ∈ w, pyIsSpace c = false := by
  induction cs with
  | nil =>
    intro acc hacc w hw
    unfold splitAux at hw
    by_cases h : acc = []
    · rw [if_pos h] at hw
      exact absurd hw (List.not_mem_nil w)
    · rw [if_neg h] at hw
      have hw2 : w = acc.reverse := by simpa using hw
      subst hw2
      refine ⟨by simpa using h, ?_⟩
      intro c hc
      exact hacc c (List.mem_reverse.mp hc)
  | cons c cs ih =>
    intro acc hacc w hw
    unfold splitAux at hw
    by_cases hsp : pyIsSpace c
    · rw [if_pos hsp] at hw
      by_cases h : acc = []
      · rw [if_pos h] at hw
        exact ih [] (by simp) w hw
      · rw [if_neg h] at hw
        rcases List.mem_cons.mp hw with h1 | h2
        · subst h1
          refine ⟨by simpa using h, ?_⟩
          intro c2 hc2
          exact hacc c2 (List.mem_reverse.mp hc2)
        · exact ih [] (by simp) w h2
    · rw [if_neg hsp] at hw
      refine ih (c :: acc) ?_ w hw
      intro c2 hc2
      rcases List.mem_cons.mp hc2 with h1 | h2
      · subst h1
        simpa using hsp
      · exact hacc c2 h2

/-- C1: on the sample sentence, with the English stop-word set and a
verb-POS lemmatizer agreeing with WordNet on the nine surviving tokens, the
pipeline produces exactly the three expected stage outputs: after stop-word
filtering, after punctuation stripping, and after lemmatization. -/
theorem C1_concrete_scenario (lem : String → String)
    (h1 : lem "dogs" = "dog") (h2 : lem "running" = "run")
    (h3 : lem "park" = "park") (h4 : lem "ran" = "run")
    (h5 : lem "fast" = "fast") (h6 : lem "dog" = "dog")
    (h7 : lem "excited" = "excite") (h8 : lem "favorite" = "favorite")
    (h9 : lem "spot" = "spot") :
    filteredTokensOf sample_text =
      ["dogs", "running", "park,", "ran", "fast!", "dog", "excited;",
       "favorite", "spot."] ∧
    strippedTokensOf sample_text =
      ["dogs", "running", "park", "ran", "fast", "dog", "excited",
       "favorite", "spot"] ∧
    lemmatizedTokensOf lem sample_text =
      ["dog", "run", "park", "run", "fast", "dog", "excite", "favorite",
       "spot"] := by
  have hstr : strippedTokensOf sample_text =
      ["dogs", "running", "park", "ran", "fast", "dog", "excited",
       "favorite", "spot"] := by decide
  refine ⟨by decide, hstr, ?_⟩
  rw [lemmatizedTokensOf, hstr]
  simp [h1, h2, h3, h4, h5, h6, h7, h8, h9]

/-- Witness for C1: instantiate the lemmatizer with the concrete table
fragment of the WordNet verb lemmatizer. -/
theorem C1_concrete_scenario_witness :
    filteredTokensOf sample_text =
      ["dogs", "running", "park,", "ran", "fast!", "dog", "excited;",
       "favorite", "spot."] ∧
    strippedTokensOf sample_text =
      ["dogs", "running", "park", "ran", "fast", "dog", "excited",
       "favorite", "spot"] ∧
    lemmatizedTokensOf tableLemmatizer sample_text =
      ["dog", "run", "park", "run", "fast", "dog", "excite", "favorite",
       "spot"] :=
  C1_concrete_scenario tableLemmatizer (by decide) (by decide) (by decide)
    (by decide) (by decide) (by decide) (by decide) (by decide) (by decide)

/-- C2 counterexample: the claim that the output of punctuation stripping
contains only alphanumeric or whitespace characters fails at the input
consisting of a single underscore, because the regex class of kept
characters is the word characters, which include the underscore. -/
theorem C2_underscore_counterexample :
    ¬ (∀ s : String, onlyAlnumOrSpace (stripPunctuation s) = true) :=
  fun h => absurd (h "_") (by decide)

/-- C2 amended: punctuation stripping is total, and its output contains
only characters that are word characters (alphanumeric or underscore) or
whitespace. -/
theorem C2_strip_output_charset (s : String) :
    ∀ c ∈ (stripPunctuation s).data, (isWordChar c || pyIsSpace c) = true := by
  intro c hc
  exact (List.mem_filter.mp hc).2

/-- Witness for the amended C2 at a concrete input and character. -/
theorem C2_strip_output_charset_witness :
    (isWordChar 'a' || pyIsSpace 'a') = true :=
  C2_strip_output_charset "a!" 'a' (by decide)

/-- C3: stop-word filtering removes a token exactly when its verbatim
string is a member of the stop-word set; it is applied to the lowercased
whitespace-split tokens before punctuation stripping; and the contraction
token for it is differs from the entries "its" and "it". -/
theorem C3_verbatim_stopword_filtering :
    (∀ (toks : List String) (t : String),
        t ∈ removeStopWords toks ↔ t ∈ toks ∧ ¬ t ∈ stop_words) ∧
    (∀ text : String,
        filteredTokensOf text = removeStopWords (pySplit (lowerStr text))) ∧
    (∀ text : String,
        strippedTokensOf text = (filteredTokensOf text).map stripPunctuation) ∧
    itsTok ≠ "its" ∧ itsTok ≠ "it" := by
  refine ⟨?_, fun _ => rfl, fun _ => rfl, by decide, by decide⟩
  intro toks t
  simp [removeStopWords, List.mem_filter]

/-- C4: a token that consists only of punctuation characters (neither word
characters nor whitespace) survives stop-word filtering, is mapped to the
empty string by punctuation stripping, and the empty string is retained at
the same position of the sequence. -/
theorem C4_punct_only_token_retained (pre post : List String) (t : String)
    (hne : t ≠ "")
    (hp : ∀ c ∈ t.data, isWordChar c = false ∧ pyIsSpace c = false) :
    removeStopWords (pre ++ t :: post) =
      removeStopWords pre ++ t :: removeStopWords post ∧
    (removeStopWords (pre ++ t :: post)).map stripPunctuation =
      (removeStopWords pre).map stripPunctuation ++
        "" :: (removeStopWords post).map stripPunctuation := by
  have hallb : stop_words.all (fun w => w.data.any isWordChar) = true := by decide
  have hall : ∀ w ∈ stop_words, w.data.any isWordChar = true :=
    List.all_eq_true.mp hallb
  have hnotm : ¬ t ∈ stop_words := by
    intro hm
    have h2 := hall t hm
    rw [List.any_eq_true] at h2
    obtain ⟨c, hc, hwc⟩ := h2
    rw [(hp c hc).1] at hwc
    cases hwc
  have hcontains : stop_words.contains t = false := by simpa using hnotm
  have hstrip : stripPunctuation t = "" := by
    unfold stripPunctuation
    have hnil : t.data.filter (fun c => isWordChar c || pyIsSpace c) = [] := by
      rw [List.filter_eq_nil_iff]
      intro c hc
      rw [(hp c hc).1, (hp c hc).2]
      decide
    rw [hnil]
  have h1 : removeStopWords (pre ++ t :: post) =
      removeStopWords pre ++ t :: removeStopWords post := by
    unfold removeStopWords
    rw [List.filter_append, List.filter_cons, hcontains]
    simp
  refine ⟨h1, ?_⟩
  rw [h1, List.map_append, List.map_cons, hstrip]

/-- Witness for C4 at the token made of three dots between two words. -/
theorem C4_punct_only_token_retained_witness :
    removeStopWords (["dogs"] ++ "..." :: ["run"]) =
      removeStopWords ["dogs"] ++ "..." :: removeStopWords ["run"] ∧
    (removeStopWords (["dogs"] ++ "..." :: ["run"])).map stripPunctuation =
      (removeStopWords ["dogs"]).map stripPunctuation ++
        "" :: (removeStopWords ["run"]).map stripPunctuation :=
  C4_punct_only_token_retained ["dogs"] ["run"] "..." (by decide) (by decide)

/-- C5: each stage after tokenization maps tokens in place: the filtered
tokens are a sublist of the split tokens, and the later stages are
pointwise maps, so surviving tokens keep their relative order and no token
is reordered, duplicated or inserted. -/
theorem C5_order_preservation (lem : String → String) (text : String) :
    List.Sublist (filteredTokensOf text) (pySplit (lowerStr text)) ∧
    strippedTokensOf text = (filteredTokensOf text).map stripPunctuation ∧
    lemmatizedTokensOf lem text =
      (filteredTokensOf text).map (fun w => lem (stripPunctuation w)) ∧
    (lemmatizedTokensOf lem text).length = (filteredTokensOf text).length := by
  refine ⟨List.filter_sublist _, rfl, ?_, ?_⟩
  · rw [lemmatizedTokensOf, strippedTokensOf, List.map_map]
    rfl
  · rw [lemmatizedTokensOf, strippedTokensOf]
    simp

/-- C6: case folding is idempotent: lowercasing an already lowercased
string changes nothing. -/
theorem C6_casefold_idempotent (s : String) :
    lowerStr (lowerStr s) = lowerStr s := by
  unfold lowerStr
  refine congrArg String.mk ?_
  show (s.data.map toLowerPy).map toLowerPy = s.data.map toLowerPy
  rw [List.map_map]
  refine List.map_congr_left ?_
  intro a _
  exact toLowerPy_idem a

/-- C7: the pipeline is deterministic: its output is a function of the
input text and the injected lexical resources alone, so two invocations on
equal arguments give equal output. -/
theorem C7_determinism (lem1 lem2 stem1 stem2 : String → String)
    (t1 t2 : String) (hl : lem1 = lem2) (hs : stem1 = stem2) (ht : t1 = t2) :
    preprocess_text lem1 stem1 t1 = preprocess_text lem2 stem2 t2 := by
  rw [hl, hs, ht]

/-- Witness for C7 at concrete resources and text. -/
theorem C7_determinism_witness :
    preprocess_text tableLemmatizer id sample_text =
      preprocess_text tableLemmatizer id sample_text :=
  C7_determinism tableLemmatizer tableLemmatizer id id sample_text
    sample_text rfl rfl rfl

/-- C8: the normalization stages are total functions of the input string
(each is defined by structural recursion and mapping, so no input raises),
and on the empty input every stage yields the empty sequence and the
pipeline yields the empty string. -/
theorem C8_total_stages_empty_input (lem stem : String → String) :
    lowerStr "" = "" ∧ pySplit "" = [] ∧ filteredTokensOf "" = [] ∧
    strippedTokensOf "" = [] ∧ lemmatizedTokensOf lem "" = [] ∧
    stemmedTokensOf lem stem "" = [] ∧ preprocess_text lem stem "" = "" := by
  refine ⟨by decide, by decide, ?_, ?_, ?_, ?_, ?_⟩ <;> rfl

/-- C9: the pipeline returns the lemmatized tokens joined with single
spaces (the stemmed tokens are computed but do not reach the returned
value), which is exactly the lemmatize-only mode of the configurable
pipeline; the lemmatize-then-stem mode returns the joined stemmed
tokens. -/
theorem C9_lemmatize_only_default (lem stem : String → String)
    (text : String) :
    preprocess_text lem stem text =
      normalizePipeline lem stem StemMode.lemmatizeOnly text ∧
    normalizePipeline lem stem StemMode.lemmatizeOnly text =
      String.intercalate " " (lemmatizedTokensOf lem text) ∧
    normalizePipeline lem stem StemMode.lemmatizeThenStem text =
      String.intercalate " " (stemmedTokensOf lem stem text) :=
  ⟨rfl, rfl, rfl⟩

/-- C10: every token produced by whitespace splitting is non-empty and
contains no whitespace character; hence an empty token later in the
pipeline can only come from punctuation stripping. -/
theorem C10_tokens_nonempty_nonspace (s t : String) (h : t ∈ pySplit s) :
    t ≠ "" ∧ t.data.all (fun c => !pyIsSpace c) = true := by
  unfold pySplit at h
  rw [List.mem_map] at h
  obtain ⟨w, hw, hmk⟩ := h
  have hs := splitAux_sound s.data [] (by simp) w hw
  subst hmk
  constructor
  · intro hc
    exact hs.1 (congrArg String.data hc)
  · rw [List.all_eq_true]
    intro c hc
    have hcs := hs.2 c hc
    simp [hcs]

/-- Witness for C10 on a concrete two-word string. -/
theorem C10_tokens_nonempty_nonspace_witness :
    ("a" : String) ≠ "" ∧ "a".data.all (fun c => !pyIsSpace c) = true :=
  C10_tokens_nonempty_nonspace "a b" "a" (by decide)
